import Mathlib

/-!
# Verification of the LLM Provider Dispatch Core (`service/provider_manager.go`)

This file gives a shallow embedding, in Lean 4, of the dispatch core of the
`gochen-llm` repository: the per-endpoint runtime state, candidate selection
(`selectCandidates` / `selectAllByMinPriority`), the weighted stable starting
position (`chooseWeightedStart`), the token bucket (`takeRateToken` /
`bumpRateWindow`), the health-probe state updates (`pingEndpoint`), the
per-visit gates of the failover walk, and the success / failure outcome
handling of `ChatForUser`.

Modelling conventions:
* Go `int` / `int64` values are modelled as `Int`; where Go wraps on
  overflow (plain `int64` arithmetic such as the cooldown multiplication or
  the weight accumulator) the wrap is made explicit through `wrap64`.
* Go `uint32` / `uint64` counters are modelled as `Nat` reduced modulo
  `2^32` / `2^64` at each increment, mirroring `atomic.AddUint32/64`.
* Timestamps are `Int` nanoseconds (Go `UnixNano`).  `time.Since(x)` at a
  model time `t` is `t - x`.  Each visit of the failover walk is given one
  ambient time `tNow` standing for the (closely spaced) `time.Now()` calls
  made during that visit; the rate-limit gate uses the time captured before
  the walk (`now0`), exactly as the Go code passes the outer `now` to
  `takeRateToken`.
* The token bucket uses Go `float64`; it is modelled with `ℚ`.  All bucket
  quantities reachable in the claims (integral token counts, 1-second
  refills) are exactly representable in `float64`, so `ℚ` is faithful there.
* External effects (HTTP probe outcomes, the upstream `client.Chat` call)
  are supplied by an environment (`VisitEnv`): the model receives the
  outcome the outside world would have produced and performs exactly the
  state updates the Go code performs on that outcome.
* Errors (`error` values built with `errorx`) are modelled by the inductive
  `GoErr`; `errorx.Wrap(err, Internal, msg)` is `GoErr.wrap msg err`, which
  is structurally distinct from `err` itself.
-/

/-- Two's-complement wrap of Go `int64` arithmetic. -/
def wrap64 (x : Int) : Int := (x + 2 ^ 63) % 2 ^ 64 - 2 ^ 63

/-- `maxInt` from `provider_manager.go`. -/
def maxInt (a b : Int) : Int := if a > b then a else b

/-- The 64-bit MurmurHash3 finalizer used in `chooseWeightedStart`
(`h ^= h>>33; h *= 0xff51afd7ed558ccd; h ^= h>>33; h *= 0xc4ceb9fe1a85ec53;
h ^= h>>33`), on `Nat` values below `2^64`. -/
def fmix64 (h0 : Nat) : Nat :=
  let h := h0 % 2 ^ 64
  let h := h ^^^ (h >>> 33)
  let h := (h * 0xff51afd7ed558ccd) % 2 ^ 64
  let h := h ^^^ (h >>> 33)
  let h := (h * 0xc4ceb9fe1a85ec53) % 2 ^ 64
  h ^^^ (h >>> 33)

/-- Conversion of a Go `int64` to `uint64` (two's complement reinterpretation),
as used by `uint64(seed)`. -/
def toUint64 (x : Int) : Nat := (x % 2 ^ 64).toNat

/-- Model of Go `error` values produced by the dispatch core. -/
inductive GoErr where
  /-- `context.Canceled` (or any cancellation cause) surfacing from a call. -/
  | ctxCanceled : GoErr
  /-- An upstream / transport error with its message. -/
  | upstream (msg : String) : GoErr
  /-- `errorx.New(errorx.Internal, msg)` and similar leaf errors. -/
  | internalE (msg : String) : GoErr
  /-- `errorx.Wrap(cause, errorx.Internal, msg)`. -/
  | wrap (msg : String) (cause : GoErr) : GoErr
deriving DecidableEq, Repr

deriving instance DecidableEq for Except

/-- Rough model of `err.Error()`: only used as the opaque string stored in
`stats.lastError`. -/
def GoErr.message : GoErr → String
  | .ctxCanceled => "context canceled"
  | .upstream m => m
  | .internalE m => m
  | .wrap m c => m ++ ": " ++ c.message

/-- Opaque model of `client.ChatResponse`. -/
structure ChatResponse where
  content : String
deriving DecidableEq, Repr

/-- The tuple returned by `ChatForUser` on success:
`(resp, provider, model, latency, inputPricePer1k, outputPricePer1k)`. -/
structure ChatSuccess where
  resp : ChatResponse
  provider : String
  model : String
  latencyMs : Int
  inputPricePer1k : ℚ
  outputPricePer1k : ℚ
deriving DecidableEq, Repr

/-- The fields of `entity.ProviderConfig` read by the dispatch core. -/
structure ProviderConfig where
  name : String
  provider : String
  model : String
  enabled : Bool
  priority : Int
  weight : Int
  timeoutSeconds : Int
  cooldownSeconds : Int
  healthPingURL : String
  healthTimeoutSeconds : Int
  maxErrorStreak : Int
  recoverySuccesses : Int
  rateLimitPerMin : Int
  rateLimitBurst : Int
  inputPricePer1k : ℚ
  outputPricePer1k : ℚ
deriving DecidableEq, Repr

/-- One entry of the bounded health history (`healthSample`). -/
structure HealthSample where
  timestamp : Int
  success : Bool
  statusCode : Int
  latencyMs : Int
  errMsg : String
deriving DecidableEq, Repr

/-- Model of `endpointState` (including the `endpointStats` block).
`rateLastRefill : Option Int` models the Go `time.Time` with `none` for the
zero value tested by `IsZero`. -/
structure EndpointState where
  cfg : ProviderConfig
  cooldownUntil : Int
  healthFailedStreak : Nat
  healthSuccessStreak : Nat
  inCircuitOpen : Bool
  lastPingAt : Int
  healthHistory : List HealthSample
  rateWindowStart : Int
  rateCount : Int
  rateTokens : ℚ
  rateLastRefill : Option Int
  totalRequests : Nat
  failures : Nat
  lastErrorAt : Int
  lastLatencyMs : Int
  failureStreak : Nat
  lastError : String
deriving DecidableEq, Repr

/-- A throwaway state used only as the `List.getD` default; the Go code
indexes `eps` with indices built from `range eps`, so the default is never
reached on the inputs the theorems quantify over. -/
def dummyEndpoint : EndpointState where
  cfg := {
    name := "", provider := "", model := "", enabled := true
    priority := 0, weight := 0, timeoutSeconds := 0, cooldownSeconds := 0
    healthPingURL := "", healthTimeoutSeconds := 0, maxErrorStreak := 0
    recoverySuccesses := 0, rateLimitPerMin := 0, rateLimitBurst := 0
    inputPricePer1k := 0, outputPricePer1k := 0 }
  cooldownUntil := 0
  healthFailedStreak := 0
  healthSuccessStreak := 0
  inCircuitOpen := false
  lastPingAt := 0
  healthHistory := []
  rateWindowStart := 0
  rateCount := 0
  rateTokens := 0
  rateLastRefill := none
  totalRequests := 0
  failures := 0
  lastErrorAt := 0
  lastLatencyMs := 0
  failureStreak := 0
  lastError := ""

/-- The bucket capacity computed in `loadEndpoints`:
`capacity := float64(perMin + burst); if capacity <= 0 { capacity = perMin };
if capacity < 0 { capacity = 0 }`. -/
def initialCapacity (c : ProviderConfig) : ℚ :=
  let capacity : ℚ := ((c.rateLimitPerMin + c.rateLimitBurst : Int) : ℚ)
  let capacity := if capacity ≤ 0 then ((c.rateLimitPerMin : Int) : ℚ) else capacity
  if capacity < 0 then 0 else capacity

/-- The `endpointState` built for an enabled config in `loadEndpoints`:
`cooldownUntil: 0, rateTokens: capacity, rateLastRefill: now`, every other
field at its Go zero value. -/
def freshEndpoint (c : ProviderConfig) (t0 : Int) : EndpointState :=
  { dummyEndpoint with
    cfg := c
    rateTokens := initialCapacity c
    rateLastRefill := some t0 }

/-- Priority normalisation repeated inline in the selection code:
`p := ep.cfg.Priority; if p == 0 { p = 100 }`. -/
def normPri (ep : EndpointState) : Int :=
  if ep.cfg.priority = 0 then 100 else ep.cfg.priority

/-- The two `continue` guards at the top of the `selectCandidates` loop,
folded into one eligibility test: the breaker must be closed and
`!(cd > 0 && now.Before(time.Unix(0, cd)))`. -/
def primElig (now : Int) (ep : EndpointState) : Bool :=
  !ep.inCircuitOpen && !(decide (ep.cooldownUntil > 0) && decide (now < ep.cooldownUntil))

/-- The single `continue` guard of the `selectAllByMinPriority` loops:
breaker-open endpoints are skipped, cooldown is ignored. -/
def fbElig (ep : EndpointState) : Bool := !ep.inCircuitOpen

/-- The `minPri`/`candidates` accumulation loop shared (in shape) by
`selectCandidates`, rendered as structural recursion over the endpoint list
with the running index `i`, the running minimum `m` and the accumulator
`acc`:
skip ineligible endpoints; `p < m` resets the accumulator to `[i]`;
`p == m` appends `i`; `p > m` leaves the state unchanged. -/
def scanMinPri (elig : EndpointState → Bool) :
    List EndpointState → Nat → Int → List Nat → List Nat
  | [], _, _, acc => acc
  | ep :: rest, i, m, acc =>
    if elig ep then
      let p := normPri ep
      if p < m then scanMinPri elig rest (i + 1) p [i]
      else if p = m then scanMinPri elig rest (i + 1) m (acc ++ [i])
      else scanMinPri elig rest (i + 1) m acc
    else scanMinPri elig rest (i + 1) m acc

/-- `selectCandidates`: one pass, starting from the `math.MaxInt32`
sentinel, over eligible (closed-breaker, cooldown-expired) endpoints. -/
def selectCandidates (eps : List EndpointState) (now : Int) : List Nat :=
  scanMinPri (primElig now) eps 0 2147483647 []

/-- The first loop of `selectAllByMinPriority`: the running minimum of the
normalised priorities of eligible endpoints, seeded with `math.MaxInt32`. -/
def runMin (elig : EndpointState → Bool) (l : List EndpointState) (m0 : Int) : Int :=
  l.foldl (fun m ep => if elig ep ∧ normPri ep < m then normPri ep else m) m0

/-- The second loop of `selectAllByMinPriority`: collect, in index order,
the eligible endpoints whose normalised priority equals `target`. -/
def collectEq (elig : EndpointState → Bool) (target : Int) :
    List EndpointState → Nat → List Nat
  | [], _ => []
  | ep :: rest, i =>
    if elig ep ∧ normPri ep = target then i :: collectEq elig target rest (i + 1)
    else collectEq elig target rest (i + 1)

/-- `selectAllByMinPriority`: ignore cooldown, still skip open breakers,
keep the minimum-priority ties. -/
def selectAllByMinPriority (eps : List EndpointState) : List Nat :=
  if eps.isEmpty then []
  else collectEq fbElig (runMin fbElig eps 2147483647) eps 0

/-- Weight normalisation repeated inline in `chooseWeightedStart`:
`w := eps[idx].cfg.Weight; if w <= 0 { w = 100 }`. -/
def effWeight (w : Int) : Int := if w ≤ 0 then 100 else w

/-- The final loop of `chooseWeightedStart`: walk the candidates with their
position `i`, returning the first position whose effective weight exceeds
the remaining `point`; the Go fallback `return 0` is the `[]` case. -/
def weightedScan (eps : List EndpointState) : Int → Nat → List Nat → Nat
  | _, _, [] => 0
  | point, i, idx :: rest =>
    let w := effWeight (eps.getD idx dummyEndpoint).cfg.weight
    if point < w then i else weightedScan eps (point - w) (i + 1) rest

/-- `chooseWeightedStart`: total weight (Go `int` accumulation, hence
`wrap64`), the user-keyed MurmurHash3-finalized point, and the subtractive
scan. `seed = userID` when positive, else the current nanosecond time. -/
def chooseWeightedStart (eps : List EndpointState) (candidates : List Nat)
    (userID : Int) (now : Int) : Nat :=
  if candidates.isEmpty then 0
  else
    let totalWeight := candidates.foldl
      (fun tw idx => wrap64 (tw + effWeight (eps.getD idx dummyEndpoint).cfg.weight)) 0
    if totalWeight ≤ 0 then 0
    else
      let seed : Int := if userID > 0 then userID else now
      let h := fmix64 (toUint64 seed)
      let point : Int := (h % totalWeight.toNat : Nat)
      weightedScan eps point 0 candidates

/-- The subtractive scan that claim C4 asserts, with the spec's effective
weight `max(weight, 100)`.  Follows the spec's words, for comparison with
the code's `weightedScan`. -/
def weightedScanClaimed (eps : List EndpointState) : Int → Nat → List Nat → Nat
  | _, _, [] => 0
  | point, i, idx :: rest =>
    let w := maxInt (eps.getD idx dummyEndpoint).cfg.weight 100
    if point < w then i else weightedScanClaimed eps (point - w) (i + 1) rest

/-- The selection that claim C4 asserts (spec wording): identical to
`chooseWeightedStart` except that every candidate's effective weight is
`max(weight, 100)`.  This definition follows the spec's words, for
comparison with the code's `chooseWeightedStart`. -/
def chooseWeightedStartClaimed (eps : List EndpointState) (candidates : List Nat)
    (userID : Int) (now : Int) : Nat :=
  if candidates.isEmpty then 0
  else
    let totalWeight := candidates.foldl
      (fun tw idx => wrap64 (tw + maxInt (eps.getD idx dummyEndpoint).cfg.weight 100)) 0
    if totalWeight ≤ 0 then 0
    else
      let seed : Int := if userID > 0 then userID else now
      let h := fmix64 (toUint64 seed)
      let point : Int := (h % totalWeight.toNat : Nat)
      weightedScanClaimed eps point 0 candidates

/-- `takeRateToken`: lazy refill-on-take token bucket.  Returns the
admission decision together with the updated endpoint.  Elapsed seconds
(`now.Sub(lastRefill).Seconds()`) are `(now - last) / 10^9` as an exact
rational. -/
def takeRateToken (ep : EndpointState) (now : Int) : Bool × EndpointState :=
  let perMin := ep.cfg.rateLimitPerMin
  if perMin ≤ 0 then (true, ep)
  else
    let capacity : ℚ := ((perMin + ep.cfg.rateLimitBurst : Int) : ℚ)
    let capacity := if capacity ≤ 0 then ((perMin : Int) : ℚ) else capacity
    let refillPerSec : ℚ := ((perMin : Int) : ℚ) / 60
    let ep : EndpointState :=
      match ep.rateLastRefill with
      | none =>
        { ep with
          rateLastRefill := some now
          rateTokens := if ep.rateTokens = 0 then capacity else ep.rateTokens }
      | some _ => ep
    let ep :=
      if refillPerSec > 0 then
        let last := ep.rateLastRefill.getD now
        let elapsed : ℚ := ((now - last : Int) : ℚ) / 1000000000
        if elapsed > 0 then
          let t := ep.rateTokens + elapsed * refillPerSec
          { ep with
            rateTokens := if t > capacity then capacity else t
            rateLastRefill := some now }
        else ep
      else ep
    if ep.rateTokens ≥ (1 : ℚ) then (true, { ep with rateTokens := ep.rateTokens - 1 })
    else (false, ep)

/-- `bumpRateWindow`: the coarse minute-window counter kept for the status
board.  `now.Unix()/60` is `(now / 10^9) / 60` on nanoseconds. -/
def bumpRateWindow (ep : EndpointState) (now : Int) : EndpointState :=
  let nowMin := now / 1000000000 / 60
  let ep :=
    if ep.rateWindowStart ≠ nowMin then
      { ep with rateWindowStart := nowMin, rateCount := 0 }
    else ep
  { ep with rateCount := ep.rateCount + 1 }

/-- `recordHealthSample`: append and keep the last 10 samples. -/
def recordHealthSample (hist : List HealthSample) (s : HealthSample) :
    List HealthSample :=
  let h := hist ++ [s]
  if h.length > 10 then h.drop (h.length - 10) else h

/-- The state updates `pingEndpoint` performs when the probe (the bounded
HTTP retry) succeeds: record a success sample, then
`healthFailedStreak = 0; healthSuccessStreak = 0; inCircuitOpen = 0` —
unconditionally, with no reference to `recovery_successes`. -/
def pingEndpointSuccess (ep : EndpointState) (ts statusCode latencyMs : Int) :
    EndpointState :=
  { ep with
    healthHistory := recordHealthSample ep.healthHistory
      { timestamp := ts, success := true, statusCode := statusCode
        latencyMs := latencyMs, errMsg := "" }
    healthFailedStreak := 0
    healthSuccessStreak := 0
    inCircuitOpen := false }

/-- The state updates `pingEndpoint` performs when the probe fails (and the
context is not cancelled): zero the success streak, bump the failed streak
(`uint32` add), open the breaker when the streak reaches
`maxInt(MaxErrorStreak, 1)`, and record a failure sample. -/
def pingEndpointFailure (ep : EndpointState) (ts : Int) (emsg : String) :
    EndpointState :=
  let failStreak : Nat := (ep.healthFailedStreak + 1) % 2 ^ 32
  { ep with
    healthSuccessStreak := 0
    healthFailedStreak := failStreak
    inCircuitOpen :=
      if (failStreak : Int) ≥ maxInt ep.cfg.maxErrorStreak 1 then true
      else ep.inCircuitOpen
    healthHistory := recordHealthSample ep.healthHistory
      { timestamp := ts, success := false, statusCode := 0
        latencyMs := 0, errMsg := emsg } }

/-- Success handling of `ChatForUser` (lines 216–236): bump
`totalRequests`, zero `stats.failureStreak`, record the clamped latency and
`lastPingAt`, and — only when the breaker is open — count a half-open
success, closing the breaker when the bumped success streak reaches
`maxInt(RecoverySuccesses, 1)`; when the breaker is closed, zero
`healthFailedStreak`. -/
def processSuccess (ep : EndpointState) (latencyMs0 tNow : Int) : EndpointState :=
  let ep := { ep with
    totalRequests := (ep.totalRequests + 1) % 2 ^ 64
    failureStreak := 0 }
  let latency := if latencyMs0 < 0 then 0 else latencyMs0
  let ep := { ep with lastLatencyMs := latency, lastPingAt := tNow }
  if ep.inCircuitOpen then
    let s : Nat := (ep.healthSuccessStreak + 1) % 2 ^ 32
    if (s : Int) ≥ maxInt ep.cfg.recoverySuccesses 1 then
      { ep with
        inCircuitOpen := false
        healthFailedStreak := 0
        healthSuccessStreak := 0 }
    else { ep with healthSuccessStreak := s }
  else { ep with healthFailedStreak := 0 }

/-- The cooldown computed in the failure path of `ChatForUser`:
`base = CooldownSeconds` defaulted to 30 only when non-positive;
`factor = 1 << min(streak-1, 3)`; `cd = Duration(base*factor) * Second`
capped at 5 minutes.  `streakStored` is the value returned by the
`uint32` increment; the local copy is forced to 1 when it wrapped to 0.
Result in nanoseconds; the two `wrap64` applications mirror the `int` and
`time.Duration` (`int64`) multiplications. -/
def cooldownNanos (cooldownSeconds : Int) (streakStored : Nat) : Int :=
  let base := if cooldownSeconds ≤ 0 then 30 else cooldownSeconds
  let streak := if streakStored = 0 then 1 else streakStored
  let factorExp := streak - 1
  let factorExp := if factorExp > 3 then 3 else factorExp
  let factor : Int := 2 ^ factorExp
  let cd := wrap64 (wrap64 (base * factor) * 1000000000)
  if cd > 300 * 1000000000 then 300 * 1000000000 else cd

/-- Failure handling of `ChatForUser` (lines 239–271): bump
`totalRequests` and `failures`, stamp the error, zero the health success
streak, bump the health failed streak (opening the breaker at
`maxInt(MaxErrorStreak, 1)`), bump `stats.failureStreak`, and set
`cooldownUntil = tNow + cooldownNanos`. -/
def processFailure (ep : EndpointState) (emsg : String) (tNow : Int) :
    EndpointState :=
  let ep := { ep with
    totalRequests := (ep.totalRequests + 1) % 2 ^ 64
    failures := (ep.failures + 1) % 2 ^ 64
    lastErrorAt := tNow
    lastError := emsg
    healthSuccessStreak := 0 }
  let failStreak : Nat := (ep.healthFailedStreak + 1) % 2 ^ 32
  let ep := { ep with
    healthFailedStreak := failStreak
    inCircuitOpen :=
      if (failStreak : Int) ≥ maxInt ep.cfg.maxErrorStreak 1 then true
      else ep.inCircuitOpen }
  let streakStored : Nat := (ep.failureStreak + 1) % 2 ^ 32
  let ep := { ep with failureStreak := streakStored }
  { ep with cooldownUntil := tNow + cooldownNanos ep.cfg.cooldownSeconds streakStored }

/-- Outcome of one inline probe as produced by the outside world:
an HTTP success (status `< 400`), a failure, or a context cancellation
(in which case `pingEndpoint` returns `ctx.Err()` before touching the
streaks). -/
inductive PingOutcome where
  | success (statusCode latencyMs : Int) : PingOutcome
  | failure (emsg : String) : PingOutcome
  | cancelled : PingOutcome
deriving DecidableEq, Repr

/-- The external inputs consumed by one visit of the failover walk:
the ambient time of the visit's `time.Now()` calls, the probe outcome the
world would produce if the inline ping gate fires, the upstream `Chat`
outcome if the call is reached, and the measured latency. -/
structure VisitEnv where
  tNow : Int
  ping : PingOutcome
  chat : Except GoErr ChatResponse
  latencyMs : Int
deriving Repr

/-- Result of one visit: the endpoint was skipped by a gate, the chat call
succeeded, or the chat call failed. -/
inductive VisitOutcome where
  | skipped (ep : EndpointState) : VisitOutcome
  | succeeded (ep : EndpointState) (res : ChatSuccess) : VisitOutcome
  | failed (ep : EndpointState) (e : GoErr) : VisitOutcome
deriving DecidableEq, Repr

/-- The endpoint state carried by a visit outcome. -/
def VisitOutcome.state : VisitOutcome → EndpointState
  | .skipped ep => ep
  | .succeeded ep _ => ep
  | .failed ep _ => ep

/-- The success tuple assembled on a successful chat (line 236). -/
def mkChatSuccess (ep : EndpointState) (resp : ChatResponse) (latency : Int) :
    ChatSuccess :=
  { resp := resp, provider := ep.cfg.provider, model := ep.cfg.model
    latencyMs := latency
    inputPricePer1k := ep.cfg.inputPricePer1k
    outputPricePer1k := ep.cfg.outputPricePer1k }

/-- The chat call and its outcome handling (lines 213–271), after all gates
passed. -/
def doChat (ep : EndpointState) (env : VisitEnv) : VisitOutcome :=
  match env.chat with
  | .ok resp =>
    let latency := if env.latencyMs < 0 then 0 else env.latencyMs
    .succeeded (processSuccess ep env.latencyMs env.tNow) (mkChatSuccess ep resp latency)
  | .error e => .failed (processFailure ep e.message env.tNow) e

/-- One visit of the failover walk (lines 189–271): the breaker gate, the
inline-ping gate (which stamps `lastPingAt` before probing), the rate-limit
gate (which uses the pre-walk time `now0`), then the chat call. -/
def visitEndpoint (ep : EndpointState) (now0 : Int) (env : VisitEnv) :
    VisitOutcome :=
  if ep.inCircuitOpen ∧
      env.tNow - ep.lastPingAt <
        maxInt ep.cfg.healthTimeoutSeconds 1 * 1000000000 then
    .skipped ep
  else
    let pinged :
        EndpointState × Bool :=
      if ep.cfg.healthPingURL ≠ "" ∧
          env.tNow - ep.lastPingAt >
            maxInt ep.cfg.healthTimeoutSeconds 1 * 1000000000 then
        let ep := { ep with lastPingAt := env.tNow }
        match env.ping with
        | .success sc lat => (pingEndpointSuccess ep env.tNow sc lat, true)
        | .failure emsg => (pingEndpointFailure ep env.tNow emsg, false)
        | .cancelled => (ep, false)
      else (ep, true)
    let ep := pinged.1
    if pinged.2 = false then .skipped ep
    else
      if ep.cfg.rateLimitPerMin > 0 then
        let taken := takeRateToken ep now0
        if taken.1 then doChat (bumpRateWindow taken.2 now0) env
        else .skipped taken.2
      else doChat ep env

/-- The circular failover walk (lines 185–286): `k` visits remain, `i` is
the completed-visit count, `firstErr` remembers the first upstream error.
When the walk exhausts, the first error is wrapped as
`所有 LLM 端点调用失败`; when every candidate was skipped by gates the
walk returns `LLM 调用失败但未返回具体错误`. -/
def walkVisits (cands : List Nat) (startPos : Nat) (now0 : Int)
    (envs : Nat → VisitEnv) :
    Nat → Nat → List EndpointState → Option GoErr →
    List EndpointState × Except GoErr ChatSuccess
  | _, 0, eps, firstErr =>
    (eps, .error (match firstErr with
      | none => .internalE "LLM 调用失败但未返回具体错误"
      | some e => .wrap "所有 LLM 端点调用失败" e))
  | i, k + 1, eps, firstErr =>
    let idx := cands.getD ((startPos + i) % cands.length) 0
    let ep := eps.getD idx dummyEndpoint
    match visitEndpoint ep now0 (envs i) with
    | .skipped ep' =>
      walkVisits cands startPos now0 envs (i + 1) k (eps.set idx ep') firstErr
    | .succeeded ep' res => (eps.set idx ep', .ok res)
    | .failed ep' e =>
      walkVisits cands startPos now0 envs (i + 1) k (eps.set idx ep')
        (match firstErr with | none => some e | some e0 => some e0)

/-- `ChatForUser` after the endpoint snapshot has been obtained (lines
169–286): the empty-snapshot check, the two candidate passes, the
no-available-endpoint error, the weighted start, and the failover walk.
The nil-context / nil-request guards and the repository load are outside
the model. -/
def chatForUser (eps : List EndpointState) (userID : Int) (now0 : Int)
    (envs : Nat → VisitEnv) : List EndpointState × Except GoErr ChatSuccess :=
  if eps.isEmpty then (eps, .error (.internalE "LLM 未配置"))
  else
    let candidates := selectCandidates eps now0
    let candidates :=
      if candidates.isEmpty then selectAllByMinPriority eps else candidates
    if candidates.isEmpty then
      (eps, .error (.internalE "没有可用的 LLM 端点"))
    else
      let startPos := chooseWeightedStart eps candidates userID now0
      walkVisits candidates startPos now0 envs 0 candidates.length eps none

/-- The endpoint refuting C1 as stated: breaker closed, no cooldown, but a
priority of `2^31 = 2147483648`, just past the `math.MaxInt32` sentinel. -/
def epC1 : EndpointState :=
  freshEndpoint
    { name := "big", provider := "p", model := "m", enabled := true
      priority := 2147483648, weight := 100, timeoutSeconds := 30
      cooldownSeconds := 30, healthPingURL := "", healthTimeoutSeconds := 5
      maxErrorStreak := 3, recoverySuccesses := 2, rateLimitPerMin := 0
      rateLimitBurst := 0, inputPricePer1k := 0, outputPricePer1k := 0 } 0

/-- A well-behaved endpoint (priority 10) for the C1 witness. -/
def epC1w : EndpointState := freshEndpoint { epC1.cfg with priority := 10 } 0

/-- Base configuration used by the concrete scenarios: priority 10,
weight 100, `cooldown_seconds = 30`, `max_error_streak = 3`,
`recovery_successes = 2`, no ping URL, no rate limit. -/
def cfgBase : ProviderConfig :=
  { name := "a", provider := "prov", model := "mod", enabled := true
    priority := 10, weight := 100, timeoutSeconds := 30, cooldownSeconds := 30
    healthPingURL := "", healthTimeoutSeconds := 5, maxErrorStreak := 3
    recoverySuccesses := 2, rateLimitPerMin := 0, rateLimitBurst := 0
    inputPricePer1k := 0, outputPricePer1k := 0 }

/-- A closed-breaker, cooldown-free endpoint for the C2 scenario. -/
def epC2 : EndpointState := freshEndpoint cfgBase 0

/-- The visit environment in which the upstream call reports the caller's
cancellation. -/
def envC2 : VisitEnv :=
  { tNow := 0, ping := .cancelled, chat := .error .ctxCanceled, latencyMs := 0 }

/-- The endpoint refuting C3 as stated: `cooldown_seconds = 10`. -/
def epC3 : EndpointState := freshEndpoint { cfgBase with cooldownSeconds := 10 } 0

/-- The single endpoint of the C6 scenario: `cooldown_seconds = 30`. -/
def epC6 : EndpointState := freshEndpoint cfgBase 0

/-- One upstream failure processed at time 0 (all five failures land in
the same second, so the walk's failure time is 0 throughout). -/
def failStep (ep : EndpointState) : EndpointState := processFailure ep "err" 0

/-- The endpoint refuting C5 as stated: breaker open,
`recovery_successes = 2`, success streak 0, failed streak 3. -/
def epC5 : EndpointState :=
  { freshEndpoint cfgBase 0 with inCircuitOpen := true, healthFailedStreak := 3 }

/-- The endpoint refuting the recovery clause of C7: breaker open,
`recovery_successes = 2`, success streak 0, ping URL configured. -/
def epC7 : EndpointState :=
  { freshEndpoint
      { cfgBase with healthPingURL := "http://ping", healthTimeoutSeconds := 1 } 0
    with inCircuitOpen := true, healthFailedStreak := 3 }

/-- The environment of the refuting dispatch: the probe succeeds, then the
chat call succeeds. -/
def envC7 : VisitEnv :=
  { tNow := 10000000000, ping := .success 200 5, chat := .ok ⟨"ok"⟩
    latencyMs := 5 }

/-- A visit environment seen inside the breaker window (no probe). -/
def envC7early : VisitEnv :=
  { tNow := 0, ping := .cancelled, chat := .error .ctxCanceled, latencyMs := 0 }

/-- A visit environment after the window with a failing probe. -/
def envC7fail : VisitEnv :=
  { tNow := 10000000000, ping := .failure "down"
    chat := .error .ctxCanceled, latencyMs := 0 }

/-- One step of a `take` sequence: perform the take and record the
admission decision. -/
def takeStep (acc : List Bool × EndpointState) (t : Int) :
    List Bool × EndpointState :=
  let r := takeRateToken acc.2 t
  (acc.1 ++ [r.1], r.2)

/-- A sequence of `take` operations at the given times, collecting each
admission decision in order. -/
def takeSeq (ep : EndpointState) (ts : List Int) : List Bool × EndpointState :=
  ts.foldl takeStep ([], ep)

/-- The C8 endpoint: `rate_limit_per_min = 60`, `rate_limit_burst = 10`,
freshly initialised (full bucket, 70 tokens) at `t = 0`. -/
def epC8 : EndpointState :=
  freshEndpoint { cfgBase with rateLimitPerMin := 60, rateLimitBurst := 10 } 0

/-- The C10 witness endpoint: closed breaker, cooldown until `t = 100`. -/
def epC10 : EndpointState := { freshEndpoint cfgBase 0 with cooldownUntil := 100 }

/-- The list of effective weights of the candidates, in candidate order
(the amended normalisation: only non-positive weights become 100). -/
def effWeights (eps : List EndpointState) (cands : List Nat) : List Int :=
  cands.map (fun idx => effWeight (eps.getD idx dummyEndpoint).cfg.weight)

/-- A candidate endpoint with configured weight 50 (strictly between 0 and
100). -/
def epW50 : EndpointState := freshEndpoint { cfgBase with weight := 50 } 0

/-- A candidate endpoint with configured weight 100. -/
def epW100 : EndpointState := freshEndpoint { cfgBase with weight := 100 } 0

section SelectionLemmas

variable (elig : EndpointState → Bool)

lemma runMin_cons (ep : EndpointState) (rest : List EndpointState) (m : Int) :
    runMin elig (ep :: rest) m =
      runMin elig rest (if elig ep ∧ normPri ep < m then normPri ep else m) := rfl

lemma runMin_le (l : List EndpointState) : ∀ m : Int, runMin elig l m ≤ m := by
  induction l with
  | nil => intro m; simp [runMin]
  | cons ep rest ih =>
    intro m
    rw [runMin_cons]
    by_cases h : elig ep ∧ normPri ep < m
    · simp only [if_pos h]
      exact le_trans (ih (normPri ep)) (le_of_lt h.2)
    · simp only [if_neg h]
      exact ih m

lemma runMin_le_mem (l : List EndpointState) :
    ∀ m : Int, ∀ ep ∈ l, elig ep → runMin elig l m ≤ normPri ep := by
  induction l with
  | nil => intro m ep h; simp at h
  | cons ep0 rest ih =>
    intro m ep hmem he
    rw [runMin_cons]
    rcases List.mem_cons.mp hmem with h | h
    · subst h
      by_cases hc : elig ep ∧ normPri ep < m
      · simp only [if_pos hc]; exact runMin_le elig rest (normPri ep)
      · simp only [if_neg hc]
        have : ¬ normPri ep < m := fun hlt => hc ⟨he, hlt⟩
        exact le_trans (runMin_le elig rest m) (le_of_not_lt this)
    · exact ih _ ep h he

lemma le_runMin (l : List EndpointState) :
    ∀ m x : Int, (∀ ep ∈ l, elig ep → x ≤ normPri ep) → x ≤ m →
      x ≤ runMin elig l m := by
  induction l with
  | nil => intro m x _ hm; simpa [runMin] using hm
  | cons ep rest ih =>
    intro m x hall hm
    rw [runMin_cons]
    by_cases hc : elig ep ∧ normPri ep < m
    · simp only [if_pos hc]
      exact ih _ x (fun e he hel => hall e (List.mem_cons_of_mem _ he) hel)
        (hall ep (List.mem_cons_self _ _) hc.1)
    · simp only [if_neg hc]
      exact ih _ x (fun e he hel => hall e (List.mem_cons_of_mem _ he) hel) hm

lemma runMin_eq_iff (l : List EndpointState) :
    ∀ m : Int, runMin elig l m = m ↔ ∀ ep ∈ l, elig ep → m ≤ normPri ep := by
  induction l with
  | nil => intro m; simp [runMin]
  | cons ep rest ih =>
    intro m
    rw [runMin_cons]
    constructor
    · intro h
      by_cases hc : elig ep ∧ normPri ep < m
      · rw [if_pos hc] at h
        have := runMin_le elig rest (normPri ep)
        omega
      · rw [if_neg hc] at h
        intro e he hel
        rcases List.mem_cons.mp he with rfl | hmem
        · by_contra hlt
          exact hc ⟨hel, by omega⟩
        · exact (ih m).mp h e hmem hel
    · intro hall
      have hc : ¬(elig ep ∧ normPri ep < m) := by
        rintro ⟨hel, hlt⟩
        have := hall ep (List.mem_cons_self _ _) hel
        omega
      rw [if_neg hc]
      exact (ih m).mpr fun e he hel => hall e (List.mem_cons_of_mem _ he) hel

end SelectionLemmas

lemma exists_lt_succ_shift {n : Nat} {P : Nat → Prop} :
    (∃ j, j < n + 1 ∧ P j) ↔ P 0 ∨ ∃ j, j < n ∧ P (j + 1) := by
  constructor
  · rintro ⟨j, hj, hP⟩
    cases j with
    | zero => exact .inl hP
    | succ j => exact .inr ⟨j, by omega, hP⟩
  · rintro (h | ⟨j, hj, hP⟩)
    · exact ⟨0, by omega, h⟩
    · exact ⟨j + 1, by omega, hP⟩

/-- Full membership characterization of the `minPri`/`candidates` scan:
`k` comes out of the loop iff it was already in the accumulator and no
eligible endpoint beats the incoming minimum, or `k` names an eligible
endpoint whose normalised priority equals the final running minimum. -/
lemma scanMinPri_mem (elig : EndpointState → Bool) :
    ∀ (l : List EndpointState) (i0 : Nat) (m : Int) (acc : List Nat) (k : Nat),
    k ∈ scanMinPri elig l i0 m acc ↔
      (k ∈ acc ∧ ∀ ep ∈ l, elig ep → m ≤ normPri ep) ∨
      (∃ j, j < l.length ∧ k = i0 + j ∧ elig (l.getD j dummyEndpoint) ∧
        normPri (l.getD j dummyEndpoint) = runMin elig l m) := by
  intro l
  induction l with
  | nil => intro i0 m acc k; simp [scanMinPri]
  | cons ep rest ih =>
    intro i0 m acc k
    have hlen : (ep :: rest).length = rest.length + 1 := rfl
    by_cases he : elig ep = true
    · by_cases hlt : normPri ep < m
      · -- reset branch: accumulator replaced by [i0], minimum replaced by p
        have hstep : scanMinPri elig (ep :: rest) i0 m acc =
            scanMinPri elig rest (i0 + 1) (normPri ep) [i0] := by
          simp [scanMinPri, he, hlt]
        have hmin : runMin elig (ep :: rest) m = runMin elig rest (normPri ep) := by
          rw [runMin_cons, if_pos ⟨he, hlt⟩]
        rw [hstep, ih, hmin]
        constructor
        · rintro (⟨hk, hall⟩ | ⟨j, hj, hk, hel, hpri⟩)
          · refine .inr ⟨0, by omega, ?_, ?_, ?_⟩
            · simpa using hk
            · simpa using he
            · simp only [List.getD_cons_zero]
              exact ((runMin_eq_iff elig rest (normPri ep)).mpr hall).symm
          · exact .inr ⟨j + 1, by omega, by omega, by simpa using hel, by simpa using hpri⟩
        · rintro (⟨hk, hall⟩ | ⟨j, hj, hk, hel, hpri⟩)
          · have := hall ep (List.mem_cons_self _ _) he
            omega
          · cases j with
            | zero =>
              simp only [List.getD_cons_zero] at hpri
              refine .inl ⟨by simp [hk], ?_⟩
              exact (runMin_eq_iff elig rest (normPri ep)).mp hpri.symm
            | succ j =>
              exact .inr ⟨j, by omega, by omega, by simpa using hel, by simpa using hpri⟩
      · by_cases heq : normPri ep = m
        · -- append branch: i0 appended, minimum unchanged
          have hstep : scanMinPri elig (ep :: rest) i0 m acc =
              scanMinPri elig rest (i0 + 1) m (acc ++ [i0]) := by
            simp [scanMinPri, he, hlt, heq]
          have hmin : runMin elig (ep :: rest) m = runMin elig rest m := by
            rw [runMin_cons, if_neg]; rintro ⟨-, h⟩; omega
          rw [hstep, ih, hmin]
          constructor
          · rintro (⟨hk, hall⟩ | ⟨j, hj, hk, hel, hpri⟩)
            · rcases List.mem_append.mp hk with hk | hk
              · refine .inl ⟨hk, ?_⟩
                intro e hme hele
                rcases List.mem_cons.mp hme with rfl | hme
                · omega
                · exact hall e hme hele
              · refine .inr ⟨0, by omega, ?_, ?_, ?_⟩
                · simp at hk; omega
                · simpa using he
                · simp only [List.getD_cons_zero, heq]
                  exact ((runMin_eq_iff elig rest m).mpr hall).symm
            · exact .inr ⟨j + 1, by omega, by omega, by simpa using hel, by simpa using hpri⟩
          · rintro (⟨hk, hall⟩ | ⟨j, hj, hk, hel, hpri⟩)
            · exact .inl ⟨List.mem_append.mpr (.inl hk),
                fun e hme hele => hall e (List.mem_cons_of_mem _ hme) hele⟩
            · cases j with
              | zero =>
                simp only [List.getD_cons_zero, heq] at hpri
                refine .inl ⟨List.mem_append.mpr (.inr (by simp [hk])), ?_⟩
                exact (runMin_eq_iff elig rest m).mp hpri.symm
              | succ j =>
                exact .inr ⟨j, by omega, by omega, by simpa using hel, by simpa using hpri⟩
        · -- p > m: state unchanged
          have hstep : scanMinPri elig (ep :: rest) i0 m acc =
              scanMinPri elig rest (i0 + 1) m acc := by
            simp [scanMinPri, he, hlt, heq]
          have hmin : runMin elig (ep :: rest) m = runMin elig rest m := by
            rw [runMin_cons, if_neg]; rintro ⟨-, h⟩; omega
          rw [hstep, ih, hmin]
          constructor
          · rintro (⟨hk, hall⟩ | ⟨j, hj, hk, hel, hpri⟩)
            · refine .inl ⟨hk, ?_⟩
              intro e hme hele
              rcases List.mem_cons.mp hme with rfl | hme
              · omega
              · exact hall e hme hele
            · exact .inr ⟨j + 1, by omega, by omega, by simpa using hel, by simpa using hpri⟩
          · rintro (⟨hk, hall⟩ | ⟨j, hj, hk, hel, hpri⟩)
            · exact .inl ⟨hk, fun e hme hele => hall e (List.mem_cons_of_mem _ hme) hele⟩
            · cases j with
              | zero =>
                simp only [List.getD_cons_zero] at hpri
                have h1 := runMin_le elig rest m
                omega
              | succ j =>
                exact .inr ⟨j, by omega, by omega, by simpa using hel, by simpa using hpri⟩
    · -- ineligible: skipped entirely
      have hstep : scanMinPri elig (ep :: rest) i0 m acc =
          scanMinPri elig rest (i0 + 1) m acc := by
        simp [scanMinPri, he]
      have hmin : runMin elig (ep :: rest) m = runMin elig rest m := by
        rw [runMin_cons, if_neg]; rintro ⟨h, -⟩; exact he h
      rw [hstep, ih, hmin]
      constructor
      · rintro (⟨hk, hall⟩ | ⟨j, hj, hk, hel, hpri⟩)
        · refine .inl ⟨hk, ?_⟩
          intro e hme hele
          rcases List.mem_cons.mp hme with rfl | hme
          · exact absurd hele he
          · exact hall e hme hele
        · exact .inr ⟨j + 1, by omega, by omega, by simpa using hel, by simpa using hpri⟩
      · rintro (⟨hk, hall⟩ | ⟨j, hj, hk, hel, hpri⟩)
        · exact .inl ⟨hk, fun e hme hele => hall e (List.mem_cons_of_mem _ hme) hele⟩
        · cases j with
          | zero =>
            simp only [List.getD_cons_zero] at hel
            exact absurd hel he
          | succ j =>
            exact .inr ⟨j, by omega, by omega, by simpa using hel, by simpa using hpri⟩

lemma collectEq_mem (elig : EndpointState → Bool) (t : Int) :
    ∀ (l : List EndpointState) (i0 k : Nat),
    k ∈ collectEq elig t l i0 ↔
      ∃ j, j < l.length ∧ k = i0 + j ∧ elig (l.getD j dummyEndpoint) ∧
        normPri (l.getD j dummyEndpoint) = t := by
  intro l
  induction l with
  | nil => intro i0 k; simp [collectEq]
  | cons ep rest ih =>
    intro i0 k
    by_cases hc : elig ep = true ∧ normPri ep = t
    · have hstep : collectEq elig t (ep :: rest) i0 =
          i0 :: collectEq elig t rest (i0 + 1) := by
        simp [collectEq, hc.1, hc.2]
      rw [hstep]
      simp only [List.mem_cons, ih]
      constructor
      · rintro (rfl | ⟨j, hj, hk, hel, hpri⟩)
        · exact ⟨0, by simp, by omega, by simpa using hc.1, by simpa using hc.2⟩
        · exact ⟨j + 1, by simp; omega, by omega, by simpa using hel, by simpa using hpri⟩
      · rintro ⟨j, hj, hk, hel, hpri⟩
        cases j with
        | zero => exact .inl (by omega)
        | succ j =>
          exact .inr ⟨j, by simp at hj; omega, by omega, by simpa using hel,
            by simpa using hpri⟩
    · have hstep : collectEq elig t (ep :: rest) i0 =
          collectEq elig t rest (i0 + 1) := by
        simp only [collectEq, if_neg hc]
      rw [hstep, ih]
      constructor
      · rintro ⟨j, hj, hk, hel, hpri⟩
        exact ⟨j + 1, by simp; omega, by omega, by simpa using hel, by simpa using hpri⟩
      · rintro ⟨j, hj, hk, hel, hpri⟩
        cases j with
        | zero =>
          simp only [List.getD_cons_zero] at hel hpri
          exact absurd ⟨hel, hpri⟩ hc
        | succ j =>
          exact ⟨j, by simp at hj; omega, by omega, by simpa using hel, by simpa using hpri⟩

/-- Membership in the primary pass, in terms of the final running minimum. -/
lemma selectCandidates_mem (eps : List EndpointState) (now : Int) (k : Nat) :
    k ∈ selectCandidates eps now ↔
      k < eps.length ∧ primElig now (eps.getD k dummyEndpoint) = true ∧
        normPri (eps.getD k dummyEndpoint) = runMin (primElig now) eps 2147483647 := by
  rw [selectCandidates, scanMinPri_mem]
  constructor
  · rintro (⟨hk, -⟩ | ⟨j, hj, rfl, hel, hpri⟩)
    · simp at hk
    · exact ⟨by omega, by simpa using hel, by simpa using hpri⟩
  · rintro ⟨hk, hel, hpri⟩
    exact .inr ⟨k, hk, by omega, hel, hpri⟩

/-- Membership in the fallback pass, in terms of the final running minimum. -/
lemma selectAllByMinPriority_mem (eps : List EndpointState) (k : Nat) :
    k ∈ selectAllByMinPriority eps ↔
      k < eps.length ∧ fbElig (eps.getD k dummyEndpoint) = true ∧
        normPri (eps.getD k dummyEndpoint) = runMin fbElig eps 2147483647 := by
  rw [selectAllByMinPriority]
  by_cases hemp : eps.isEmpty
  · rw [if_pos hemp]
    have : eps.length = 0 := by simpa [List.isEmpty_iff_length_eq_zero] using hemp
    simp [this]
  · rw [if_neg hemp, collectEq_mem]
    constructor
    · rintro ⟨j, hj, rfl, hel, hpri⟩
      exact ⟨by omega, by simpa using hel, by simpa using hpri⟩
    · rintro ⟨hk, hel, hpri⟩
      exact ⟨k, hk, by omega, hel, hpri⟩

/-- Bridge between the boolean eligibility of the primary pass and the
claim's phrasing, for non-negative cooldown stamps. -/
lemma primElig_iff (now : Int) (ep : EndpointState) (hcd : 0 ≤ ep.cooldownUntil) :
    primElig now ep = true ↔
      (ep.inCircuitOpen = false ∧ (ep.cooldownUntil = 0 ∨ now ≥ ep.cooldownUntil)) := by
  cases h : ep.inCircuitOpen
  · simp only [primElig, h, Bool.not_false, Bool.true_and, Bool.not_eq_true',
      Bool.and_eq_false_iff, decide_eq_false_iff_not, not_lt, true_and]
    omega
  · simp [primElig, h]

/-- "Equals the running minimum" is "is a minimum among the eligible", as
long as every normalised priority stays below the `math.MaxInt32` seed. -/
lemma eq_runMin_iff_min (elig : EndpointState → Bool) (eps : List EndpointState)
    (k : Nat) (hk : k < eps.length)
    (hpri : ∀ ep ∈ eps, normPri ep ≤ 2147483647)
    (hel : elig (eps.getD k dummyEndpoint) = true) :
    normPri (eps.getD k dummyEndpoint) = runMin elig eps 2147483647 ↔
      ∀ j, j < eps.length → elig (eps.getD j dummyEndpoint) = true →
        normPri (eps.getD k dummyEndpoint) ≤ normPri (eps.getD j dummyEndpoint) := by
  have hkmem : eps.getD k dummyEndpoint ∈ eps := by
    rw [List.getD_eq_getElem eps dummyEndpoint hk]
    exact List.getElem_mem hk
  constructor
  · intro heq j hj helj
    rw [heq]
    refine runMin_le_mem elig eps _ _ ?_ helj
    rw [List.getD_eq_getElem eps dummyEndpoint hj]
    exact List.getElem_mem hj
  · intro hall
    have h1 : runMin elig eps 2147483647 ≤ normPri (eps.getD k dummyEndpoint) :=
      runMin_le_mem elig eps _ _ hkmem hel
    have h2 : normPri (eps.getD k dummyEndpoint) ≤ runMin elig eps 2147483647 := by
      refine le_runMin elig eps _ _ ?_ (hpri _ hkmem)
      intro ep hmem hele
      rcases List.mem_iff_getElem.mp hmem with ⟨j, hj, rfl⟩
      have := hall j hj (by rwa [List.getD_eq_getElem eps dummyEndpoint hj])
      rwa [List.getD_eq_getElem eps dummyEndpoint hj] at this
    omega

lemma getD_mem_of_lt (l : List EndpointState) (i : Nat) (h : i < l.length) :
    l.getD i dummyEndpoint ∈ l := by
  rw [List.getD_eq_getElem l dummyEndpoint h]
  exact List.getElem_mem h

lemma fbElig_iff (ep : EndpointState) :
    fbElig ep = true ↔ ep.inCircuitOpen = false := by
  simp [fbElig]

/-- **C1 (amended).** For every snapshot whose cooldown stamps are
non-negative and whose normalised priorities do not exceed `2147483647`
(the `math.MaxInt32` sentinel that seeds the scans), candidate selection
behaves as claimed: the primary pass keeps exactly the closed-breaker,
cooldown-expired endpoints tied at the minimum normalised priority; the
fallback pass ignores cooldown but still excludes open breakers and keeps
the minimum-priority ties; and when both passes are empty `ChatForUser`
fails with the no-available-endpoint error.  (The bound on priorities is
the amendment: an endpoint whose normalised priority exceeds
`math.MaxInt32` is silently dropped by both passes, refuting the claim's
unconditional form — see the counterexample.) -/
theorem C1_candidate_selection (eps : List EndpointState) (now userID : Int)
    (envs : Nat → VisitEnv)
    (hcd : ∀ ep ∈ eps, 0 ≤ ep.cooldownUntil)
    (hpri : ∀ ep ∈ eps, normPri ep ≤ 2147483647) :
    (∀ i, i ∈ selectCandidates eps now ↔
      (i < eps.length ∧
        (eps.getD i dummyEndpoint).inCircuitOpen = false ∧
        ((eps.getD i dummyEndpoint).cooldownUntil = 0 ∨
          now ≥ (eps.getD i dummyEndpoint).cooldownUntil) ∧
        ∀ j, j < eps.length →
          ((eps.getD j dummyEndpoint).inCircuitOpen = false ∧
            ((eps.getD j dummyEndpoint).cooldownUntil = 0 ∨
              now ≥ (eps.getD j dummyEndpoint).cooldownUntil)) →
          normPri (eps.getD i dummyEndpoint) ≤ normPri (eps.getD j dummyEndpoint))) ∧
    (∀ i, i ∈ selectAllByMinPriority eps ↔
      (i < eps.length ∧ (eps.getD i dummyEndpoint).inCircuitOpen = false ∧
        ∀ j, j < eps.length → (eps.getD j dummyEndpoint).inCircuitOpen = false →
          normPri (eps.getD i dummyEndpoint) ≤ normPri (eps.getD j dummyEndpoint))) ∧
    (eps ≠ [] → selectCandidates eps now = [] → selectAllByMinPriority eps = [] →
      chatForUser eps userID now envs =
        (eps, .error (.internalE "没有可用的 LLM 端点"))) := by
  refine ⟨?_, ?_, ?_⟩
  · intro i
    rw [selectCandidates_mem]
    constructor
    · rintro ⟨hk, hel, heq⟩
      have hcl := (primElig_iff now _ (hcd _ (getD_mem_of_lt eps i hk))).mp hel
      refine ⟨hk, hcl.1, hcl.2, ?_⟩
      intro j hj hclj
      have helj : primElig now (eps.getD j dummyEndpoint) = true :=
        (primElig_iff now _ (hcd _ (getD_mem_of_lt eps j hj))).mpr hclj
      exact (eq_runMin_iff_min (primElig now) eps i hk hpri hel).mp heq j hj helj
    · rintro ⟨hk, hopen, hcdok, hmin⟩
      have hel : primElig now (eps.getD i dummyEndpoint) = true :=
        (primElig_iff now _ (hcd _ (getD_mem_of_lt eps i hk))).mpr ⟨hopen, hcdok⟩
      refine ⟨hk, hel, ?_⟩
      refine (eq_runMin_iff_min (primElig now) eps i hk hpri hel).mpr ?_
      intro j hj helj
      exact hmin j hj ((primElig_iff now _ (hcd _ (getD_mem_of_lt eps j hj))).mp helj)
  · intro i
    rw [selectAllByMinPriority_mem]
    constructor
    · rintro ⟨hk, hel, heq⟩
      refine ⟨hk, (fbElig_iff _).mp hel, ?_⟩
      intro j hj hopenj
      exact (eq_runMin_iff_min fbElig eps i hk hpri hel).mp heq j hj
        ((fbElig_iff _).mpr hopenj)
    · rintro ⟨hk, hopen, hmin⟩
      have hel := (fbElig_iff (eps.getD i dummyEndpoint)).mpr hopen
      refine ⟨hk, hel, ?_⟩
      refine (eq_runMin_iff_min fbElig eps i hk hpri hel).mpr ?_
      intro j hj helj
      exact hmin j hj ((fbElig_iff _).mp helj)
  · intro hne hsc hsa
    have hemp : eps.isEmpty = false := by
      cases eps with
      | nil => exact absurd rfl hne
      | cons a l => rfl
    simp [chatForUser, hemp, hsc, hsa]

/-- **C1 (counterexample).** A snapshot with a single closed-breaker,
cooldown-free endpoint whose priority is `2147483648`: the claim says the
primary pass must keep it (it is the unique minimum-priority tie), yet both
passes return nothing and `ChatForUser` fails with the
no-available-endpoint error. -/
theorem C1_counterexample :
    epC1.inCircuitOpen = false ∧ epC1.cooldownUntil = 0 ∧
    selectCandidates [epC1] 0 = [] ∧
    selectAllByMinPriority [epC1] = [] ∧
    (chatForUser [epC1] 1 0 (fun _ =>
      { tNow := 0, ping := .cancelled, chat := .error .ctxCanceled
        latencyMs := 0 })).2 = .error (.internalE "没有可用的 LLM 端点") := by
  refine ⟨rfl, rfl, by decide, by decide, by decide⟩

/-- Witness for `C1_candidate_selection`: at the singleton snapshot
`[epC1w]` the hypotheses hold and the characterization puts index 0 in the
primary pass. -/
theorem C1_candidate_selection_witness : 0 ∈ selectCandidates [epC1w] 0 := by
  have h := C1_candidate_selection [epC1w] 0 1
    (fun _ => { tNow := 0, ping := .cancelled, chat := .error .ctxCanceled
                latencyMs := 0 })
    (by intro ep hmem; rw [List.mem_singleton] at hmem; subst hmem; decide)
    (by intro ep hmem; rw [List.mem_singleton] at hmem; subst hmem; decide)
  refine (h.1 0).mpr ⟨by decide, by decide, by decide, ?_⟩
  intro j hj hcl
  have hj0 : j = 0 := by simpa using hj
  subst hj0
  decide

lemma selectCandidates_singleton (ep : EndpointState) (now : Int)
    (hel : primElig now ep = true) (hpri : normPri ep ≤ 2147483647) :
    selectCandidates [ep] now = [0] := by
  rcases lt_or_eq_of_le hpri with h | h
  · simp [selectCandidates, scanMinPri, hel, h]
  · simp [selectCandidates, scanMinPri, hel, h]

lemma chooseWeightedStart_singleton (eps : List EndpointState) (i : Nat)
    (uid now : Int) : chooseWeightedStart eps [i] uid now = 0 := by
  simp only [chooseWeightedStart, List.isEmpty_cons, List.foldl_cons, List.foldl_nil]
  split
  · rfl
  · simp only [weightedScan, ite_self]

/-- **C2 (amended).** `ChatForUser` performs no context-cancellation check
during the failover walk: an error returned by `UpstreamClient.chat` —
including a caller-cancellation error — is handled exactly like any other
endpoint failure (failures and both streaks incremented, cooldown stamped)
and, once the walk exhausts, the *first* error is returned wrapped as
`所有 LLM 端点调用失败`, never verbatim.  Stated for a single-endpoint
snapshot whose gates all pass. -/
theorem C2_cancellation_counted_as_failure (ep : EndpointState)
    (uid now0 : Int) (env : VisitEnv) (e : GoErr)
    (hopen : ep.inCircuitOpen = false) (hcd : ep.cooldownUntil = 0)
    (hpri : normPri ep ≤ 2147483647)
    (hping : ep.cfg.healthPingURL = "") (hrate : ep.cfg.rateLimitPerMin ≤ 0)
    (hchat : env.chat = .error e) :
    chatForUser [ep] uid now0 (fun _ => env) =
      ([processFailure ep e.message env.tNow],
        .error (.wrap "所有 LLM 端点调用失败" e)) ∧
    (processFailure ep e.message env.tNow).failures = (ep.failures + 1) % 2 ^ 64 ∧
    (processFailure ep e.message env.tNow).failureStreak =
      (ep.failureStreak + 1) % 2 ^ 32 ∧
    (processFailure ep e.message env.tNow).cooldownUntil =
      env.tNow + cooldownNanos ep.cfg.cooldownSeconds
        ((ep.failureStreak + 1) % 2 ^ 32) := by
  have hel : primElig now0 ep = true := by simp [primElig, hopen, hcd]
  have hsc := selectCandidates_singleton ep now0 hel hpri
  have hstart := chooseWeightedStart_singleton [ep] 0 uid now0
  refine ⟨?_, by simp [processFailure], by simp [processFailure], by simp [processFailure]⟩
  have hrate' : ¬ ep.cfg.rateLimitPerMin > 0 := by omega
  simp [chatForUser, hsc, hstart, walkVisits, visitEndpoint, hopen, hping,
    hrate', hchat, doChat]

/-- **C2 (counterexample).** With a single endpoint whose chat call returns
the caller's cancellation error, `ChatForUser` returns the
all-endpoints-failed wrapping (not the cancellation error verbatim), and
the cancelled attempt *is* counted: `failures`, `stats.failureStreak` and
`health_failed_streak` each rise from 0 to 1 and a 30-second cooldown is
stamped — refuting the claim. -/
theorem C2_counterexample :
    (chatForUser [epC2] 7 0 (fun _ => envC2)).2 =
      .error (.wrap "所有 LLM 端点调用失败" .ctxCanceled) ∧
    (chatForUser [epC2] 7 0 (fun _ => envC2)).2 ≠ .error .ctxCanceled ∧
    epC2.failures = 0 ∧ epC2.failureStreak = 0 ∧
    epC2.healthFailedStreak = 0 ∧ epC2.cooldownUntil = 0 ∧
    ((chatForUser [epC2] 7 0 (fun _ => envC2)).1.getD 0 dummyEndpoint).failures = 1 ∧
    ((chatForUser [epC2] 7 0 (fun _ => envC2)).1.getD 0 dummyEndpoint).failureStreak = 1 ∧
    ((chatForUser [epC2] 7 0 (fun _ => envC2)).1.getD 0
      dummyEndpoint).healthFailedStreak = 1 ∧
    ((chatForUser [epC2] 7 0 (fun _ => envC2)).1.getD 0
      dummyEndpoint).cooldownUntil = 30000000000 := by
  decide

/-- Witness for `C2_cancellation_counted_as_failure` at a concrete
endpoint and an upstream error. -/
theorem C2_cancellation_counted_as_failure_witness :
    chatForUser [epC2] 7 0
      (fun _ => { tNow := 0, ping := .cancelled, chat := .error (.upstream "boom")
                  latencyMs := 0 }) =
      ([processFailure epC2 "boom" 0],
        .error (.wrap "所有 LLM 端点调用失败" (.upstream "boom"))) :=
  (C2_cancellation_counted_as_failure epC2 7 0
    { tNow := 0, ping := .cancelled, chat := .error (.upstream "boom")
      latencyMs := 0 }
    (.upstream "boom") (by decide) (by decide) (by decide) (by decide)
    (by decide) rfl).1

lemma wrap64_eq_self (x : Int) (h1 : -(2 ^ 63) ≤ x) (h2 : x < 2 ^ 63) :
    wrap64 x = x := by
  unfold wrap64
  omega

/-- First-failure cooldown: the stored streak becomes 1 and the computed
cooldown is `cooldownSeconds` seconds whenever `0 < cooldownSeconds < 30`
(no flooring at 30, no cap reached). -/
lemma cooldownNanos_first (cs : Int) (hpos : 0 < cs) (hlt : cs < 30) :
    cooldownNanos cs 1 = cs * 1000000000 := by
  unfold cooldownNanos
  have hb : ¬ cs ≤ 0 := by omega
  simp only [if_neg hb, if_neg (by omega : ¬ (1 : Nat) = 0)]
  norm_num
  rw [wrap64_eq_self cs (by omega) (by omega),
    wrap64_eq_self (cs * 1000000000) (by nlinarith) (by nlinarith)]
  have hcap : ¬ (300000000000 : Int) < cs * 1000000000 := by nlinarith
  rw [if_neg hcap]

/-- **C3 (amended).** In the failure path the cooldown base is
`cooldown_seconds` itself whenever it is positive; the value 30 is used
only when `cooldown_seconds ≤ 0`.  In particular, an endpoint whose
configured `cooldown_seconds` is strictly between 0 and 30 receives a
cooldown of exactly `cooldown_seconds` seconds after its first consecutive
failure — not 30 seconds. -/
theorem C3_cooldown_base (ep : EndpointState) (emsg : String) (tNow : Int)
    (hpos : 0 < ep.cfg.cooldownSeconds) (hlt : ep.cfg.cooldownSeconds < 30)
    (hstreak : ep.failureStreak = 0) :
    (processFailure ep emsg tNow).cooldownUntil =
      tNow + ep.cfg.cooldownSeconds * 1000000000 := by
  have h1 : (ep.failureStreak + 1) % 2 ^ 32 = 1 := by rw [hstreak]; rfl
  simp only [processFailure, h1]
  rw [cooldownNanos_first ep.cfg.cooldownSeconds hpos hlt]

/-- **C3 (counterexample).** With `cooldown_seconds = 10` (positive but
less than 30), the cooldown computed after the first consecutive failure is
10 seconds, not the 30 seconds the claim's `max(cooldown_seconds, 30)`
formula demands. -/
theorem C3_counterexample :
    epC3.cfg.cooldownSeconds = 10 ∧ epC3.failureStreak = 0 ∧
    (processFailure epC3 "boom" 0).cooldownUntil = 10000000000 ∧
    (processFailure epC3 "boom" 0).cooldownUntil ≠ 30000000000 := by
  decide

/-- Witness for `C3_cooldown_base` at the `cooldown_seconds = 10`
endpoint. -/
theorem C3_cooldown_base_witness :
    (processFailure epC3 "boom" 5).cooldownUntil = 5 + 10 * 1000000000 :=
  C3_cooldown_base epC3 "boom" 5 (by decide) (by decide) (by decide)

/-- **C6 (amended).** Single endpoint, `cooldown_seconds = 30`, five
consecutive upstream failures in the same second: the computed cooldowns
are 30 s, 60 s, 120 s, 240 s — and 240 s again for the fifth failure,
because the backoff factor `1 << min(streak-1, 3)` saturates at 8 and
`30 × 8 = 240 s` never reaches the 5-minute cap. -/
theorem C6_backoff_sequence :
    (failStep epC6).cooldownUntil = 30 * 1000000000 ∧
    (failStep (failStep epC6)).cooldownUntil = 60 * 1000000000 ∧
    (failStep (failStep (failStep epC6))).cooldownUntil = 120 * 1000000000 ∧
    (failStep (failStep (failStep (failStep epC6)))).cooldownUntil =
      240 * 1000000000 ∧
    (failStep (failStep (failStep (failStep (failStep epC6))))).cooldownUntil =
      240 * 1000000000 := by
  decide

/-- **C6 (counterexample).** The fifth consecutive failure yields a 240 s
cooldown, not the 300 s cap the claim asserts. -/
theorem C6_counterexample :
    (failStep (failStep (failStep (failStep (failStep epC6))))).cooldownUntil =
      240 * 1000000000 ∧
    (failStep (failStep (failStep (failStep (failStep epC6))))).cooldownUntil ≠
      300 * 1000000000 := by
  decide

/-- Shape of `processSuccess` when the breaker is closed. -/
lemma processSuccess_closed (ep : EndpointState) (lat tNow : Int)
    (hb : ep.inCircuitOpen = false) :
    processSuccess ep lat tNow =
      { ep with
        totalRequests := (ep.totalRequests + 1) % 2 ^ 64
        failureStreak := 0
        lastLatencyMs := if lat < 0 then 0 else lat
        lastPingAt := tNow
        healthFailedStreak := 0 } := by
  simp [processSuccess, hb]

/-- Shape of `processSuccess` when the breaker is open and the bumped
half-open success streak reaches `maxInt(RecoverySuccesses, 1)`. -/
lemma processSuccess_open_reached (ep : EndpointState) (lat tNow : Int)
    (hb : ep.inCircuitOpen = true)
    (hth : (((ep.healthSuccessStreak + 1) % 2 ^ 32 : Nat) : Int) ≥
      maxInt ep.cfg.recoverySuccesses 1) :
    processSuccess ep lat tNow =
      { ep with
        totalRequests := (ep.totalRequests + 1) % 2 ^ 64
        failureStreak := 0
        lastLatencyMs := if lat < 0 then 0 else lat
        lastPingAt := tNow
        inCircuitOpen := false
        healthFailedStreak := 0
        healthSuccessStreak := 0 } := by
  have hth2 : maxInt ep.cfg.recoverySuccesses 1 ≤
      ((ep.healthSuccessStreak : Int) + 1) % 4294967296 := by
    push_cast at hth
    omega
  simp [processSuccess, hb, hth2]

/-- Shape of `processSuccess` when the breaker is open and the bumped
half-open success streak stays below `maxInt(RecoverySuccesses, 1)`:
`health_failed_streak` is left untouched and the breaker stays open. -/
lemma processSuccess_open_below (ep : EndpointState) (lat tNow : Int)
    (hb : ep.inCircuitOpen = true)
    (hth : (((ep.healthSuccessStreak + 1) % 2 ^ 32 : Nat) : Int) <
      maxInt ep.cfg.recoverySuccesses 1) :
    processSuccess ep lat tNow =
      { ep with
        totalRequests := (ep.totalRequests + 1) % 2 ^ 64
        failureStreak := 0
        lastLatencyMs := if lat < 0 then 0 else lat
        lastPingAt := tNow
        healthSuccessStreak := (ep.healthSuccessStreak + 1) % 2 ^ 32 } := by
  have hth2 : ¬ (maxInt ep.cfg.recoverySuccesses 1 ≤
      ((ep.healthSuccessStreak : Int) + 1) % 4294967296) := by
    push_cast at hth
    omega
  simp [processSuccess, hb, hth2]

/-- **C5 (amended).** Immediately after a successful upstream call is
processed, `stats.failureStreak` is always zero; `health_failed_streak`
is zero when the breaker was closed, and also when the breaker was open
and the bumped half-open success streak reached
`maxInt(recovery_successes, 1)` (breaker closes, both health streaks
zeroed) — but when the breaker was open with the bumped success streak
still below the threshold, `health_failed_streak` keeps its previous
value and the breaker stays open. -/
theorem C5_success_resets_streaks (ep : EndpointState) (lat tNow : Int) :
    (processSuccess ep lat tNow).failureStreak = 0 ∧
    (ep.inCircuitOpen = false →
      (processSuccess ep lat tNow).healthFailedStreak = 0) ∧
    (ep.inCircuitOpen = true →
      (((ep.healthSuccessStreak + 1) % 2 ^ 32 : Nat) : Int) ≥
        maxInt ep.cfg.recoverySuccesses 1 →
      (processSuccess ep lat tNow).healthFailedStreak = 0 ∧
      (processSuccess ep lat tNow).healthSuccessStreak = 0 ∧
      (processSuccess ep lat tNow).inCircuitOpen = false) ∧
    (ep.inCircuitOpen = true →
      (((ep.healthSuccessStreak + 1) % 2 ^ 32 : Nat) : Int) <
        maxInt ep.cfg.recoverySuccesses 1 →
      (processSuccess ep lat tNow).healthFailedStreak = ep.healthFailedStreak ∧
      (processSuccess ep lat tNow).healthSuccessStreak =
        (ep.healthSuccessStreak + 1) % 2 ^ 32 ∧
      (processSuccess ep lat tNow).inCircuitOpen = true) := by
  refine ⟨?_, ?_, ?_, ?_⟩
  · cases hb : ep.inCircuitOpen
    · rw [processSuccess_closed ep lat tNow hb]
    · rcases le_or_lt (maxInt ep.cfg.recoverySuccesses 1)
        (((ep.healthSuccessStreak + 1) % 2 ^ 32 : Nat) : Int) with hth | hth
      · rw [processSuccess_open_reached ep lat tNow hb hth]
      · rw [processSuccess_open_below ep lat tNow hb hth]
  · intro hb
    rw [processSuccess_closed ep lat tNow hb]
  · intro hb hth
    rw [processSuccess_open_reached ep lat tNow hb hth]
    exact ⟨rfl, rfl, rfl⟩
  · intro hb hth
    rw [processSuccess_open_below ep lat tNow hb hth]
    exact ⟨rfl, rfl, hb⟩

/-- **C5 (counterexample).** A success processed while the breaker is open
and the success streak is still below `recovery_successes` leaves
`health_failed_streak` at 3 (and the breaker open), refuting the claim
that both streaks are zero after every processed success. -/
theorem C5_counterexample :
    epC5.inCircuitOpen = true ∧ epC5.cfg.recoverySuccesses = 2 ∧
    epC5.healthSuccessStreak = 0 ∧ epC5.healthFailedStreak = 3 ∧
    (processSuccess epC5 5 0).failureStreak = 0 ∧
    (processSuccess epC5 5 0).healthFailedStreak = 3 ∧
    (processSuccess epC5 5 0).healthFailedStreak ≠ 0 ∧
    (processSuccess epC5 5 0).inCircuitOpen = true := by
  decide

/-- Witness for `C5_success_resets_streaks` at a concrete closed-breaker
endpoint (the implications discharged at `epC2`). -/
theorem C5_success_resets_streaks_witness :
    (processSuccess epC2 5 0).failureStreak = 0 ∧
    (processSuccess epC2 5 0).healthFailedStreak = 0 :=
  ⟨(C5_success_resets_streaks epC2 5 0).1,
    (C5_success_resets_streaks epC2 5 0).2.1 (by decide)⟩

lemma pingEndpointFailure_fields (ep : EndpointState) (ts : Int) (m : String) :
    (pingEndpointFailure ep ts m).healthFailedStreak =
      (ep.healthFailedStreak + 1) % 2 ^ 32 ∧
    (pingEndpointFailure ep ts m).inCircuitOpen =
      (if (((ep.healthFailedStreak + 1) % 2 ^ 32 : Nat) : Int) ≥
          maxInt ep.cfg.maxErrorStreak 1 then true else ep.inCircuitOpen) ∧
    (pingEndpointFailure ep ts m).cfg = ep.cfg ∧
    (pingEndpointFailure ep ts m).healthSuccessStreak = 0 := by
  refine ⟨rfl, ?_, rfl, rfl⟩
  simp [pingEndpointFailure]

lemma maxInt_three_one : maxInt 3 1 = 3 := by decide

/-- **C7 (amended).** For an endpoint with `max_error_streak = 3`:
(1) three consecutive failed probes open the breaker (the first two leave
it closed);
(2) while the breaker is open, a dispatch arriving within
`health_timeout_seconds` of `last_ping_at` skips the endpoint with no
probe and no state change;
(3) once the window has elapsed the visit runs an inline probe (stamping
`last_ping_at` first), and a failed probe demotes the endpoint for this
call;
(4) a *successful* probe closes the breaker and zeroes both health streaks
unconditionally — `recovery_successes` plays no role in probe-driven
recovery (it gates only chat successes processed while the breaker is
open). -/
theorem C7_breaker_probe_cycle :
    (∀ (ep : EndpointState) (t1 t2 t3 : Int) (m1 m2 m3 : String),
      ep.cfg.maxErrorStreak = 3 → ep.healthFailedStreak = 0 →
      ep.inCircuitOpen = false →
      (pingEndpointFailure ep t1 m1).inCircuitOpen = false ∧
      (pingEndpointFailure (pingEndpointFailure ep t1 m1) t2 m2).inCircuitOpen
        = false ∧
      (pingEndpointFailure (pingEndpointFailure
        (pingEndpointFailure ep t1 m1) t2 m2) t3 m3).inCircuitOpen = true) ∧
    (∀ (ep : EndpointState) (now0 : Int) (env : VisitEnv),
      ep.inCircuitOpen = true →
      env.tNow - ep.lastPingAt <
        maxInt ep.cfg.healthTimeoutSeconds 1 * 1000000000 →
      visitEndpoint ep now0 env = .skipped ep) ∧
    (∀ (ep : EndpointState) (now0 : Int) (env : VisitEnv) (m : String),
      ep.cfg.healthPingURL ≠ "" →
      env.tNow - ep.lastPingAt >
        maxInt ep.cfg.healthTimeoutSeconds 1 * 1000000000 →
      env.ping = .failure m →
      visitEndpoint ep now0 env =
        .skipped (pingEndpointFailure { ep with lastPingAt := env.tNow }
          env.tNow m)) ∧
    (∀ (ep : EndpointState) (ts sc lat : Int),
      (pingEndpointSuccess ep ts sc lat).inCircuitOpen = false ∧
      (pingEndpointSuccess ep ts sc lat).healthFailedStreak = 0 ∧
      (pingEndpointSuccess ep ts sc lat).healthSuccessStreak = 0) := by
  refine ⟨?_, ?_, ?_, ?_⟩
  · intro ep t1 t2 t3 m1 m2 m3 hm hs hb
    obtain ⟨f1s, f1o, f1c, -⟩ := pingEndpointFailure_fields ep t1 m1
    have h1s : (pingEndpointFailure ep t1 m1).healthFailedStreak = 1 := by
      rw [f1s, hs]
      decide
    have h1o : (pingEndpointFailure ep t1 m1).inCircuitOpen = false := by
      rw [f1o, hs, hm, hb]
      norm_num [maxInt_three_one]
    obtain ⟨f2s, f2o, f2c, -⟩ :=
      pingEndpointFailure_fields (pingEndpointFailure ep t1 m1) t2 m2
    have h2s : (pingEndpointFailure (pingEndpointFailure ep t1 m1) t2
        m2).healthFailedStreak = 2 := by
      rw [f2s, h1s]
      decide
    have h2o : (pingEndpointFailure (pingEndpointFailure ep t1 m1) t2
        m2).inCircuitOpen = false := by
      rw [f2o, h1s, f1c, hm, h1o]
      norm_num [maxInt_three_one]
    obtain ⟨f3s, f3o, f3c, -⟩ := pingEndpointFailure_fields
      (pingEndpointFailure (pingEndpointFailure ep t1 m1) t2 m2) t3 m3
    have h3o : (pingEndpointFailure (pingEndpointFailure
        (pingEndpointFailure ep t1 m1) t2 m2) t3 m3).inCircuitOpen = true := by
      rw [f3o, h2s, f2c, f1c, hm]
      norm_num [maxInt_three_one]
    exact ⟨h1o, h2o, h3o⟩
  · intro ep now0 env hb hlt
    unfold visitEndpoint
    have hc : ep.inCircuitOpen = true ∧
        env.tNow - ep.lastPingAt <
          maxInt ep.cfg.healthTimeoutSeconds 1 * 1000000000 := ⟨hb, hlt⟩
    rw [if_pos hc]
  · intro ep now0 env m hurl hgt hping
    unfold visitEndpoint
    have hgate : ¬(ep.inCircuitOpen = true ∧
        env.tNow - ep.lastPingAt <
          maxInt ep.cfg.healthTimeoutSeconds 1 * 1000000000) := by
      rintro ⟨-, hlt⟩
      omega
    have hc2 : ep.cfg.healthPingURL ≠ "" ∧
        env.tNow - ep.lastPingAt >
          maxInt ep.cfg.healthTimeoutSeconds 1 * 1000000000 := ⟨hurl, hgt⟩
    rw [if_neg hgate, hping, if_pos hc2]
    rfl
  · intro ep ts sc lat
    exact ⟨rfl, rfl, rfl⟩

/-- **C7 (counterexample).** The claim says a successful inline probe
closes the breaker only once `health_success_streak ≥ recovery_successes`
(2 here), and that it stays open below the threshold.  In the code a
single successful probe closes the breaker immediately: visiting `epC7`
(success streak 0 < 2) with a succeeding probe ends with the breaker
closed. -/
theorem C7_counterexample :
    epC7.inCircuitOpen = true ∧ epC7.cfg.recoverySuccesses = 2 ∧
    epC7.healthSuccessStreak = 0 ∧
    (visitEndpoint epC7 10000000000 envC7).state.inCircuitOpen = false := by
  decide

/-- Witness for `C7_breaker_probe_cycle`, discharging each clause's
hypotheses at concrete endpoints. -/
theorem C7_breaker_probe_cycle_witness :
    (pingEndpointFailure (pingEndpointFailure (pingEndpointFailure
      (freshEndpoint cfgBase 0) 1 "a") 2 "b") 3 "c").inCircuitOpen = true ∧
    visitEndpoint epC7 0 envC7early = .skipped epC7 ∧
    visitEndpoint epC7 10000000000 envC7fail =
      .skipped (pingEndpointFailure { epC7 with lastPingAt := 10000000000 }
        10000000000 "down") ∧
    (pingEndpointSuccess epC7 0 200 5).inCircuitOpen = false := by
  refine ⟨?_, ?_, ?_, ?_⟩
  · exact ((C7_breaker_probe_cycle.1 (freshEndpoint cfgBase 0) 1 2 3 "a" "b" "c"
      (by decide) (by decide) (by decide)).2).2
  · exact C7_breaker_probe_cycle.2.1 epC7 0 envC7early (by decide) (by decide)
  · exact C7_breaker_probe_cycle.2.2.1 epC7 10000000000 envC7fail "down"
      (by decide) (by decide) rfl
  · exact (C7_breaker_probe_cycle.2.2.2 epC7 0 200 5).1

lemma takeRateToken_admit_same (ep : EndpointState) (now : Int)
    (h60 : ep.cfg.rateLimitPerMin = 60) (h10 : ep.cfg.rateLimitBurst = 10)
    (hlr : ep.rateLastRefill = some now) (hq : 1 ≤ ep.rateTokens) :
    takeRateToken ep now = (true, { ep with rateTokens := ep.rateTokens - 1 }) := by
  simp only [takeRateToken, h60, h10, hlr]
  norm_num
  rw [if_pos hq, hlr]

lemma takeRateToken_deny_same (ep : EndpointState) (now : Int)
    (h60 : ep.cfg.rateLimitPerMin = 60) (h10 : ep.cfg.rateLimitBurst = 10)
    (hlr : ep.rateLastRefill = some now) (hq : ep.rateTokens < 1) :
    takeRateToken ep now = (false, ep) := by
  simp only [takeRateToken, h60, h10, hlr]
  norm_num
  exact hq

lemma takeRateToken_refill_one (ep : EndpointState)
    (h60 : ep.cfg.rateLimitPerMin = 60) (h10 : ep.cfg.rateLimitBurst = 10)
    (hlr : ep.rateLastRefill = some 0) (htok : ep.rateTokens = 0) :
    takeRateToken ep 1000000000 =
      (true, { ep with rateTokens := 0, rateLastRefill := some 1000000000 }) := by
  simp only [takeRateToken, h60, h10, hlr, htok]
  norm_num

lemma takeStep_pair (bs : List Bool) (ep : EndpointState) (t : Int) :
    takeStep (bs, ep) t =
      (bs ++ [(takeRateToken ep t).1], (takeRateToken ep t).2) := rfl

lemma takeSeq_acc (ts : List Int) :
    ∀ (bs : List Bool) (ep : EndpointState),
    ts.foldl takeStep (bs, ep) =
      (bs ++ (takeSeq ep ts).1, (takeSeq ep ts).2) := by
  induction ts with
  | nil => intro bs ep; simp [takeSeq]
  | cons t rest ih =>
    intro bs ep
    simp only [List.foldl_cons, takeSeq, takeStep_pair, List.nil_append]
    rw [ih, ih]
    simp

lemma takeSeq_zeros : ∀ (n : Nat) (ep : EndpointState),
    ep.cfg.rateLimitPerMin = 60 → ep.cfg.rateLimitBurst = 10 →
    ep.rateLastRefill = some 0 → (n : ℚ) ≤ ep.rateTokens →
    takeSeq ep (List.replicate n 0) =
      (List.replicate n true, { ep with rateTokens := ep.rateTokens - n }) := by
  intro n
  induction n with
  | zero => intro ep h60 h10 hlr hn; simp [takeSeq]
  | succ n ih =>
    intro ep h60 h10 hlr hn
    have hn1 : ((n : ℚ) + 1) ≤ ep.rateTokens := by push_cast at hn; linarith
    have hq : 1 ≤ ep.rateTokens := by
      have : (0 : ℚ) ≤ n := by positivity
      linarith
    rw [List.replicate_succ, takeSeq]
    simp only [List.foldl_cons, takeStep_pair, List.nil_append]
    rw [takeRateToken_admit_same ep 0 h60 h10 hlr hq]
    rw [takeSeq_acc]
    rw [ih { ep with rateTokens := ep.rateTokens - 1 } h60 h10 hlr
      (by push_cast; linarith)]
    refine Prod.ext ?_ ?_
    · simp [List.replicate_succ]
    · show ({ ep with rateTokens := ep.rateTokens - 1 - n } : EndpointState) = _
      have heq : ep.rateTokens - 1 - n = ep.rateTokens - ((n : ℚ) + 1) := by ring
      rw [heq]
      push_cast
      rfl

/-- **C8 (confirmed).** From the full 70-token bucket at `t = 0`: the first
70 takes at `t = 0` are all admitted, the 71st is denied; after exactly one
second (refill rate 1 token/s) one further take is admitted and the next
take at the same instant is denied again. -/
theorem C8_token_bucket :
    epC8.rateTokens = 70 ∧
    (takeSeq epC8 (List.replicate 71 0)).1 =
      List.replicate 70 true ++ [false] ∧
    (takeRateToken (takeSeq epC8 (List.replicate 71 0)).2 1000000000).1 = true ∧
    (takeRateToken
      (takeRateToken (takeSeq epC8 (List.replicate 71 0)).2 1000000000).2
      1000000000).1 = false := by
  have hcfg60 : epC8.cfg.rateLimitPerMin = 60 := rfl
  have hcfg10 : epC8.cfg.rateLimitBurst = 10 := rfl
  have hlr : epC8.rateLastRefill = some 0 := rfl
  have htok : epC8.rateTokens = 70 := rfl
  have h70 := takeSeq_zeros 70 epC8 hcfg60 hcfg10 hlr (by rw [htok]; norm_num)
  have hlr70 : ({ epC8 with rateTokens := epC8.rateTokens - (70 : Nat) }
      : EndpointState).rateLastRefill = some 0 := rfl
  have htok70 : ({ epC8 with rateTokens := epC8.rateTokens - (70 : Nat) }
      : EndpointState).rateTokens = 0 := by
    show epC8.rateTokens - ((70 : Nat) : ℚ) = 0
    rw [htok]; norm_num
  have h71 : takeSeq epC8 (List.replicate 71 0) =
      (List.replicate 70 true ++ [false],
        { epC8 with rateTokens := epC8.rateTokens - (70 : Nat) }) := by
    rw [show (71 : Nat) = 70 + 1 from rfl, List.replicate_succ']
    rw [takeSeq, List.foldl_append]
    rw [show List.foldl takeStep ([], epC8) (List.replicate 70 0) =
      takeSeq epC8 (List.replicate 70 0) from rfl, h70]
    simp only [List.foldl_cons, List.foldl_nil, takeStep_pair]
    rw [takeRateToken_deny_same
      ({ epC8 with rateTokens := epC8.rateTokens - (70 : Nat) }) 0 rfl rfl rfl
      (by rw [htok70]; norm_num)]
  have hrefill := takeRateToken_refill_one
    { epC8 with rateTokens := epC8.rateTokens - (70 : Nat) } rfl rfl rfl htok70
  have hd71 := takeRateToken_deny_same
    ({ ({ epC8 with rateTokens := epC8.rateTokens - (70 : Nat) } : EndpointState)
      with rateTokens := 0, rateLastRefill := some 1000000000 }) 1000000000
    rfl rfl rfl (by norm_num)
  refine ⟨htok, by rw [h71], by rw [h71, hrefill], ?_⟩
  rw [h71, hrefill, hd71]

/-- **C9 (confirmed).** For every strictly positive `userID`, the weighted
start selection is independent of the current time: the seed is `userID`
itself, so two evaluations at different times return the same start
index — the choice is a deterministic function of
`(userID, candidate order, weights)` alone. -/
theorem C9_deterministic_start (eps : List EndpointState) (cands : List Nat)
    (userID n1 n2 : Int) (hu : userID > 0) :
    chooseWeightedStart eps cands userID n1 =
      chooseWeightedStart eps cands userID n2 := by
  unfold chooseWeightedStart
  simp only [if_pos hu]

/-- Witness for `C9_deterministic_start` at a concrete two-endpoint
snapshot and two far-apart times. -/
theorem C9_deterministic_start_witness :
    chooseWeightedStart [epC2, epC5] [0, 1] 42 5 =
      chooseWeightedStart [epC2, epC5] [0, 1] 42 987654321 :=
  C9_deterministic_start [epC2, epC5] [0, 1] 42 5 987654321 (by decide)

/-- **C10 (confirmed).** Processing a success leaves `cooldown_until`
untouched: for an endpoint reached with a closed breaker (the fallback pass
admits only closed breakers) whose cooldown deadline lies in the future,
success handling updates latency, streaks, `last_ping_at` and the request
counter, but neither clears nor shortens `cooldown_until` — and the
endpoint therefore stays out of the primary candidate pass at every time
before the old deadline. -/
theorem C10_success_keeps_cooldown (ep : EndpointState) (lat tNow now' : Int)
    (hopen : ep.inCircuitOpen = false)
    (hpos : 0 < ep.cooldownUntil) (hfut : now' < ep.cooldownUntil) :
    (processSuccess ep lat tNow).cooldownUntil = ep.cooldownUntil ∧
    (processSuccess ep lat tNow).healthHistory = ep.healthHistory ∧
    (processSuccess ep lat tNow).failures = ep.failures ∧
    (processSuccess ep lat tNow).lastError = ep.lastError ∧
    (processSuccess ep lat tNow).rateTokens = ep.rateTokens ∧
    (processSuccess ep lat tNow).cfg = ep.cfg ∧
    (processSuccess ep lat tNow).totalRequests = (ep.totalRequests + 1) % 2 ^ 64 ∧
    (processSuccess ep lat tNow).failureStreak = 0 ∧
    (processSuccess ep lat tNow).healthFailedStreak = 0 ∧
    (processSuccess ep lat tNow).lastPingAt = tNow ∧
    (processSuccess ep lat tNow).lastLatencyMs = (if lat < 0 then 0 else lat) ∧
    primElig now' (processSuccess ep lat tNow) = false ∧
    (∀ (eps : List EndpointState) (i : Nat), i < eps.length →
      eps.getD i dummyEndpoint = processSuccess ep lat tNow →
      i ∉ selectCandidates eps now') := by
  have hshape := processSuccess_closed ep lat tNow hopen
  have hpe : primElig now' (processSuccess ep lat tNow) = false := by
    rw [hshape]
    simp only [primElig]
    have h1 : decide (ep.cooldownUntil > 0) = true := by simpa using hpos
    have h2 : decide (now' < ep.cooldownUntil) = true := by simpa using hfut
    simp [h1, h2]
  rw [hshape]
  rw [hshape] at hpe
  refine ⟨rfl, rfl, rfl, rfl, rfl, rfl, rfl, rfl, rfl, rfl, rfl, hpe, ?_⟩
  intro eps i hi hgd hmem
  obtain ⟨-, hel, -⟩ := (selectCandidates_mem eps now' i).mp hmem
  rw [hgd, hpe] at hel
  exact Bool.false_ne_true hel

/-- Witness for `C10_success_keeps_cooldown` at `epC10`, observed at
`now' = 50`. -/
theorem C10_success_keeps_cooldown_witness :
    (processSuccess epC10 5 0).cooldownUntil = epC10.cooldownUntil ∧
    primElig 50 (processSuccess epC10 5 0) = false := by
  have h := C10_success_keeps_cooldown epC10 5 0 50 (by decide) (by decide)
    (by decide)
  exact ⟨h.1, h.2.2.2.2.2.2.2.2.2.2.2.1⟩

lemma effWeight_pos (w : Int) : 0 < effWeight w := by
  unfold effWeight
  split <;> omega

lemma foldl_wrap64_eq_sum :
    ∀ (ws : List Int) (acc : Int), 0 ≤ acc → acc + ws.sum < 2 ^ 63 →
    (∀ w ∈ ws, 0 < w) →
    ws.foldl (fun tw w => wrap64 (tw + w)) acc = acc + ws.sum := by
  intro ws
  induction ws with
  | nil => intro acc h0 hb hpos; simp
  | cons w rest ih =>
    intro acc h0 hb hpos
    have hw : 0 < w := hpos w (List.mem_cons_self _ _)
    have hrest : ∀ x ∈ rest, 0 < x := fun x hx => hpos x (List.mem_cons_of_mem _ hx)
    have hsum : 0 ≤ rest.sum := List.sum_nonneg (fun x hx => le_of_lt (hrest x hx))
    simp only [List.sum_cons] at hb
    have hstep : wrap64 (acc + w) = acc + w :=
      wrap64_eq_self _ (by omega) (by omega)
    simp only [List.foldl_cons, hstep]
    rw [ih (acc + w) (by omega) (by omega) hrest]
    simp [List.sum_cons]
    ring

lemma weightedScan_spec (eps : List EndpointState) :
    ∀ (l : List Nat) (point : Int) (i : Nat),
    0 ≤ point → point < (effWeights eps l).sum →
    ∃ k, weightedScan eps point i l = i + k ∧ k < l.length ∧
      point < ((effWeights eps l).take (k + 1)).sum ∧
      ∀ j, j < k → ((effWeights eps l).take (j + 1)).sum ≤ point := by
  intro l
  induction l with
  | nil =>
    intro point i h0 hlt
    simp [effWeights] at hlt
    omega
  | cons idx rest ih =>
    intro point i h0 hlt
    have hws : effWeights eps (idx :: rest) =
        effWeight (eps.getD idx dummyEndpoint).cfg.weight :: effWeights eps rest := rfl
    by_cases hp : point < effWeight (eps.getD idx dummyEndpoint).cfg.weight
    · refine ⟨0, ?_, by simp, ?_, by omega⟩
      · simp only [weightedScan]
        rw [if_pos hp]
        omega
      · rw [hws, List.take_succ_cons, List.take_zero, List.sum_cons]
        simp only [List.sum_nil]
        omega
    · have hstep : weightedScan eps point i (idx :: rest) =
          weightedScan eps (point - effWeight (eps.getD idx dummyEndpoint).cfg.weight)
            (i + 1) rest := by
        simp only [weightedScan]
        rw [if_neg hp]
      have h0' : 0 ≤ point - effWeight (eps.getD idx dummyEndpoint).cfg.weight := by
        omega
      have hlt' : point - effWeight (eps.getD idx dummyEndpoint).cfg.weight <
          (effWeights eps rest).sum := by
        rw [hws, List.sum_cons] at hlt
        omega
      obtain ⟨k, hk, hklen, hktake, hkall⟩ := ih _ (i + 1) h0' hlt'
      refine ⟨k + 1, ?_, by simp only [List.length_cons]; omega, ?_, ?_⟩
      · rw [hstep, hk]
        omega
      · rw [hws, List.take_succ_cons, List.sum_cons]
        omega
      · intro j hj
        cases j with
        | zero =>
          rw [hws, List.take_succ_cons, List.take_zero, List.sum_cons]
          simp only [List.sum_nil]
          omega
        | succ j =>
          rw [hws, List.take_succ_cons, List.sum_cons]
          have := hkall j (by omega)
          omega

/-- **C4 (amended).** In weighted start selection every candidate's
effective weight is `weight` itself when positive and 100 only when the
weight is non-positive.  Under that normalisation the claim's structure
holds: the accumulated `total_weight` equals the sum of the effective
weights, the point is the 64-bit MurmurHash3-finalized seed modulo the
total, and the returned start index is the first candidate position (in
list order) whose cumulative effective weight exceeds the point — i.e. the
first whose effective weight exceeds the remaining point after
subtraction. -/
theorem C4_weighted_start (eps : List EndpointState) (cands : List Nat)
    (uid now : Int) (hne : cands ≠ [])
    (hbound : (effWeights eps cands).sum < 2 ^ 63) :
    (cands.foldl (fun tw idx =>
        wrap64 (tw + effWeight (eps.getD idx dummyEndpoint).cfg.weight)) 0) =
      (effWeights eps cands).sum ∧
    (∀ w : Int, 0 < w → effWeight w = w) ∧
    (∃ k, chooseWeightedStart eps cands uid now = k ∧ k < cands.length ∧
      ((fmix64 (toUint64 (if uid > 0 then uid else now)) %
          (effWeights eps cands).sum.toNat : Nat) : Int) <
        ((effWeights eps cands).take (k + 1)).sum ∧
      ∀ j, j < k → ((effWeights eps cands).take (j + 1)).sum ≤
        ((fmix64 (toUint64 (if uid > 0 then uid else now)) %
          (effWeights eps cands).sum.toNat : Nat) : Int)) := by
  have hpos : ∀ w ∈ effWeights eps cands, 0 < w := by
    intro w hw
    obtain ⟨idx, -, rfl⟩ := List.mem_map.mp hw
    exact effWeight_pos _
  have hnemap : effWeights eps cands ≠ [] := by
    simpa [effWeights] using hne
  have hsumpos : 0 < (effWeights eps cands).sum := List.sum_pos _ hpos hnemap
  have htot : (cands.foldl (fun tw idx =>
      wrap64 (tw + effWeight (eps.getD idx dummyEndpoint).cfg.weight)) 0) =
      (effWeights eps cands).sum := by
    rw [show (cands.foldl (fun tw idx =>
        wrap64 (tw + effWeight (eps.getD idx dummyEndpoint).cfg.weight)) 0) =
      (effWeights eps cands).foldl (fun tw w => wrap64 (tw + w)) 0 from
        (List.foldl_map
          (fun idx => effWeight (eps.getD idx dummyEndpoint).cfg.weight)
          (fun tw w => wrap64 (tw + w)) cands 0).symm]
    rw [foldl_wrap64_eq_sum (effWeights eps cands) 0 le_rfl (by omega) hpos]
    omega
  refine ⟨htot, fun w hw => by unfold effWeight; rw [if_neg (by omega)], ?_⟩
  have hemp : cands.isEmpty = false := by
    simpa [List.isEmpty_iff] using hne
  have hpt0 : (0 : Int) ≤
      ((fmix64 (toUint64 (if uid > 0 then uid else now)) %
        (effWeights eps cands).sum.toNat : Nat) : Int) := Int.ofNat_nonneg _
  have hptlt : ((fmix64 (toUint64 (if uid > 0 then uid else now)) %
      (effWeights eps cands).sum.toNat : Nat) : Int) <
      (effWeights eps cands).sum := by
    have hn0 : 0 < (effWeights eps cands).sum.toNat := by omega
    have := Nat.mod_lt (fmix64 (toUint64 (if uid > 0 then uid else now))) hn0
    omega
  obtain ⟨k, hk, hklen, hktake, hkall⟩ :=
    weightedScan_spec eps cands _ 0 hpt0 hptlt
  refine ⟨k, ?_, hklen, hktake, hkall⟩
  simp only [chooseWeightedStart, hemp, Bool.false_eq_true, if_false, htot,
    if_neg (by omega : ¬ (effWeights eps cands).sum ≤ 0)]
  rw [hk]
  omega

/-- **C4 (counterexample).** With candidates of weights `[50, 100]` and
`userID = 1`, the code (which normalises only non-positive weights to 100)
starts at index 1, while the claim's `max(weight, 100)` formula — encoded
verbatim in `chooseWeightedStartClaimed` — demands index 0: a candidate
with weight strictly between 0 and 100 is counted with its configured
weight, not with 100. -/
theorem C4_counterexample :
    epW50.cfg.weight = 50 ∧ epW100.cfg.weight = 100 ∧
    chooseWeightedStart [epW50, epW100] [0, 1] 1 0 = 1 ∧
    chooseWeightedStartClaimed [epW50, epW100] [0, 1] 1 0 = 0 ∧
    chooseWeightedStart [epW50, epW100] [0, 1] 1 0 ≠
      chooseWeightedStartClaimed [epW50, epW100] [0, 1] 1 0 := by
  decide

/-- Witness for `C4_weighted_start`: its total-weight clause instantiated
at the `[50, 100]` snapshot. -/
theorem C4_weighted_start_witness :
    ([0, 1].foldl (fun tw idx =>
        wrap64 (tw + effWeight (([epW50, epW100].getD idx
          dummyEndpoint)).cfg.weight)) 0) =
      (effWeights [epW50, epW100] [0, 1]).sum :=
  (C4_weighted_start [epW50, epW100] [0, 1] 1 0 (by decide) (by decide)).1
